import Mathlib

/-!
Verification of the x86-64 paging-structure decoding header
(`x86_64_paging.h`).  The header is a collection of `constexpr` masks and
pure functions over 64-bit integers; we embed machine words as `Nat`
(every operation used — `&&&`, `|||`, `>>>`, and `index * 8` — stays below
`2 ^ 64` on 64-bit inputs, so plain `Nat` arithmetic agrees with the
`uint64_t` semantics).
-/

namespace PSE

def TABLE_BASE_MASK : Nat := 0x000FFFFFFFFFF000

namespace VA

def PML4E_INDEX : Nat := 39

def PDPTE_INDEX : Nat := 30

def PDE_INDEX : Nat := 21

def PTE_INDEX : Nat := 12

def PSE_MASK : Nat := 0x1FF

def PAGE_OFFSET_4KB_MASK : Nat := 0xFFF

def PAGE_OFFSET_2MB_MASK : Nat := 0x1FFFFF

def PAGE_OFFSET_1GB_MASK : Nat := 0x3FFFFFFF

end VA

namespace CR3

def PML4_BASE_MASK : Nat := TABLE_BASE_MASK

end CR3

namespace PML4E

def PDPTE_ADDRESS_MASK : Nat := TABLE_BASE_MASK

def PRESENT : Nat := 1 <<< 0

def GET_INDEX (virtual_address : Nat) : Nat :=
  (virtual_address >>> VA.PML4E_INDEX) &&& VA.PSE_MASK

def GET_TABLE_BASE (cr3 : Nat) : Nat :=
  cr3 &&& CR3.PML4_BASE_MASK

def GET_ADDRESS (cr3 virtual_address : Nat) : Nat :=
  GET_TABLE_BASE cr3 ||| (GET_INDEX virtual_address * 8)

end PML4E

namespace PDPTE

def PDE_ADDRESS_MASK : Nat := TABLE_BASE_MASK

def PRESENT : Nat := 1 <<< 0

def PS : Nat := 1 <<< 7

namespace GB

def PHYS_ADDRESS_MASK : Nat := 0x000FFFFFC0000000

def GET_ADDRESS (pdpte virtual_address : Nat) : Nat :=
  (pdpte &&& PHYS_ADDRESS_MASK) ||| (virtual_address &&& VA.PAGE_OFFSET_1GB_MASK)

end GB

def GET_INDEX (virtual_address : Nat) : Nat :=
  (virtual_address >>> VA.PDPTE_INDEX) &&& VA.PSE_MASK

def GET_TABLE_BASE (pml4e : Nat) : Nat :=
  pml4e &&& PML4E.PDPTE_ADDRESS_MASK

def GET_ADDRESS (pml4e virtual_address : Nat) : Nat :=
  GET_TABLE_BASE pml4e ||| (GET_INDEX virtual_address * 8)

def IS_LARGE_PAGE (pdpte : Nat) : Bool :=
  pdpte &&& PS != 0

end PDPTE

namespace PDE

def PTE_ADDRESS_MASK : Nat := TABLE_BASE_MASK

def PRESENT : Nat := 1 <<< 0

def PS : Nat := 1 <<< 7

namespace MB

def PHYS_ADDRESS_MASK : Nat := 0x000FFFFFFFE00000

def GET_ADDRESS (pde virtual_address : Nat) : Nat :=
  (pde &&& PHYS_ADDRESS_MASK) ||| (virtual_address &&& VA.PAGE_OFFSET_2MB_MASK)

end MB

def GET_INDEX (virtual_address : Nat) : Nat :=
  (virtual_address >>> VA.PDE_INDEX) &&& VA.PSE_MASK

def GET_TABLE_BASE (pdpte : Nat) : Nat :=
  pdpte &&& PDPTE.PDE_ADDRESS_MASK

def GET_ADDRESS (pdpte virtual_address : Nat) : Nat :=
  GET_TABLE_BASE pdpte ||| (GET_INDEX virtual_address * 8)

def IS_LARGE_PAGE (pde : Nat) : Bool :=
  pde &&& PS != 0

end PDE

namespace PTE

def PHYS_ADDRESS_MASK : Nat := TABLE_BASE_MASK

def PRESENT : Nat := 1 <<< 0

def GET_INDEX (virtual_address : Nat) : Nat :=
  (virtual_address >>> VA.PTE_INDEX) &&& VA.PSE_MASK

def GET_TABLE_BASE (pde : Nat) : Nat :=
  pde &&& PDE.PTE_ADDRESS_MASK

def GET_ADDRESS (pde virtual_address : Nat) : Nat :=
  GET_TABLE_BASE pde ||| (GET_INDEX virtual_address * 8)

end PTE

namespace PE

def GET_ADDRESS (pte virtual_address : Nat) : Nat :=
  (pte &&& PSE.PTE.PHYS_ADDRESS_MASK) ||| (virtual_address &&& PSE.VA.PAGE_OFFSET_4KB_MASK)

end PE

end PSE

open PSE

namespace Walker

/-- Modelled from the spec: the four levels of the page-table hierarchy;
the header has no such enumeration (it encodes the level in namespace
names), but the Walker of the spec reports the faulting level. -/
inductive Level where
  | PML4
  | PDPTE
  | PDE
  | PTE
deriving DecidableEq, Repr

/-- Modelled from the spec: fault taxonomy of §7 — a clear Present bit
(`NotPresent`) or a failure of the injected read capability (`ReadError`). -/
inductive Reason where
  | NotPresent
  | ReadError
deriving DecidableEq, Repr

/-- Modelled from the spec: the three page granularities a walk can resolve. -/
inductive PageSize where
  | FourKB
  | TwoMB
  | OneGB
deriving DecidableEq, Repr

/-- Modelled from the spec: `TranslationOutcome` — either
`Resolved{physical_address, page_size, effective_flags}` (we surface the raw
leaf entry value as the unmodified flags, per §4.2) or `Fault{level, reason}`. -/
inductive TranslationOutcome where
  | Resolved (physical_address : Nat) (page_size : PageSize) (flags : Nat)
  | Fault (level : Level) (reason : Reason)
deriving DecidableEq, Repr

/-- Modelled from the spec: the Entry Decoder's leaf classification (§4.2) —
`true` unconditionally for PTE, the PageSize bit for PDPTE/PDE (the header's
`IS_LARGE_PAGE`), always `false` for PML4E. -/
def is_leaf : Level → Nat → Bool
  | .PML4, _ => false
  | .PDPTE, e => PDPTE.IS_LARGE_PAGE e
  | .PDE, e => PDE.IS_LARGE_PAGE e
  | .PTE, _ => true

/-- Modelled from the spec: the Walker of §4.3 — the header provides only the
per-level decoding functions; the four-level traversal (fixed order
PML4 → PDPTE → PDE → PTE, injected fallible `read_u64`, abort on read failure
or clear Present bit, stop at a leaf) is described in the spec.  The second
component records the physical addresses the Walker handed to the read
capability, in order, so that statements about which reads were performed
can be made. -/
def translateWalk (table_root virtual_address : Nat) (read : Nat → Option Nat) :
    TranslationOutcome × List Nat :=
  let pml4e_addr := PML4E.GET_ADDRESS table_root virtual_address
  match read pml4e_addr with
  | none => (.Fault .PML4 .ReadError, [pml4e_addr])
  | some pml4e =>
    if pml4e &&& PML4E.PRESENT = 0 then
      (.Fault .PML4 .NotPresent, [pml4e_addr])
    else
      let pdpte_addr := PDPTE.GET_ADDRESS pml4e virtual_address
      match read pdpte_addr with
      | none => (.Fault .PDPTE .ReadError, [pml4e_addr, pdpte_addr])
      | some pdpte =>
        if pdpte &&& PDPTE.PRESENT = 0 then
          (.Fault .PDPTE .NotPresent, [pml4e_addr, pdpte_addr])
        else if is_leaf .PDPTE pdpte then
          (.Resolved (PDPTE.GB.GET_ADDRESS pdpte virtual_address) .OneGB pdpte,
            [pml4e_addr, pdpte_addr])
        else
          let pde_addr := PDE.GET_ADDRESS pdpte virtual_address
          match read pde_addr with
          | none => (.Fault .PDE .ReadError, [pml4e_addr, pdpte_addr, pde_addr])
          | some pde =>
            if pde &&& PDE.PRESENT = 0 then
              (.Fault .PDE .NotPresent, [pml4e_addr, pdpte_addr, pde_addr])
            else if is_leaf .PDE pde then
              (.Resolved (PDE.MB.GET_ADDRESS pde virtual_address) .TwoMB pde,
                [pml4e_addr, pdpte_addr, pde_addr])
            else
              let pte_addr := PTE.GET_ADDRESS pde virtual_address
              match read pte_addr with
              | none =>
                (.Fault .PTE .ReadError, [pml4e_addr, pdpte_addr, pde_addr, pte_addr])
              | some pte =>
                if pte &&& PTE.PRESENT = 0 then
                  (.Fault .PTE .NotPresent, [pml4e_addr, pdpte_addr, pde_addr, pte_addr])
                else
                  (.Resolved (PE.GET_ADDRESS pte virtual_address) .FourKB pte,
                    [pml4e_addr, pdpte_addr, pde_addr, pte_addr])

/-- Modelled from the spec: `translate(table_root, virtual_address, read)`
of §6 — the outcome of the walk. -/
def translate (table_root virtual_address : Nat) (read : Nat → Option Nat) :
    TranslationOutcome :=
  (translateWalk table_root virtual_address read).1


end Walker

/-! ## Auxiliary bit-level lemmas -/

/-- A block of `w` one-bits shifted up by `s` has exactly the bits `s ≤ i < s + w`. -/
lemma testBit_shifted_ones (w s i : Nat) :
    ((2 ^ w - 1) <<< s).testBit i = decide (s ≤ i ∧ i < s + w) := by
  rw [Nat.testBit_shiftLeft, Nat.testBit_two_pow_sub_one]
  by_cases h : s ≤ i
  · have e2 : i - s < w ↔ i < s + w := by omega
    simp [h, e2]
  · simp [h]

/-- Extracting a 9-bit field at shift `k` and putting it back, bitwise. -/
lemma testBit_index_field (va k i : Nat) :
    (((va >>> k) &&& (2 ^ 9 - 1)) <<< k).testBit i =
      ((decide (k ≤ i) && decide (i < k + 9)) && va.testBit i) := by
  rw [Nat.testBit_shiftLeft]
  by_cases h : k ≤ i
  · rw [Nat.testBit_and, Nat.testBit_shiftRight, Nat.testBit_two_pow_sub_one]
    have e : k + (i - k) = i := by omega
    rw [e]
    have e2 : i - k < 9 ↔ i < k + 9 := by omega
    cases hb : va.testBit i <;> simp [h, e2, hb]
  · simp [h]

/-- OR with a page-aligned base is addition when the low part fits in 12 bits. -/
lemma lor_of_aligned (base b : Nat) (hb : base % 4096 = 0) (h : b < 4096) :
    base ||| b = base + b := by
  have h4096 : (4096 : Nat) = 2 ^ 12 := by norm_num
  have h2 : b < 2 ^ 12 := h4096 ▸ h
  have h1 : base = 2 ^ 12 * (base / 2 ^ 12) := by
    rw [← h4096]; omega
  rw [h1, ← Nat.mul_add_lt_is_or h2]

/-- Masking with `TABLE_BASE_MASK` produces a page-aligned value. -/
lemma and_table_base_mask_mod (e : Nat) : (e &&& TABLE_BASE_MASK) % 4096 = 0 := by
  have hcast : (e &&& TABLE_BASE_MASK) % 4096 = (e &&& TABLE_BASE_MASK) &&& 2 ^ 12 - 1 := by
    rw [Nat.and_pow_two_sub_one_eq_mod]
  have hmask : TABLE_BASE_MASK &&& 2 ^ 12 - 1 = 0 := by
    rw [Nat.and_pow_two_sub_one_eq_mod]; norm_num [TABLE_BASE_MASK]
  rw [hcast, Nat.and_assoc, hmask, Nat.and_zero]

/-- A 9-bit masked value is below 512. -/
lemma and_pse_mask_lt (x : Nat) : x &&& VA.PSE_MASK < 512 := by
  have h := Nat.and_lt_two_pow x (show VA.PSE_MASK < 2 ^ 9 by norm_num [VA.PSE_MASK])
  norm_num at h
  exact h

/-- The characteristic facts of an entry-address computation from a
page-aligned base and a table index. -/
lemma entry_address_facts (base idx : Nat) (hb : base % 4096 = 0) (hi : idx < 512) :
    base ||| idx * 8 = base + idx * 8 ∧ (base ||| idx * 8) % 8 = 0 ∧
    base ≤ (base ||| idx * 8) ∧ (base ||| idx * 8) < base + 4096 := by
  have h8 : idx * 8 < 4096 := by omega
  have he := lor_of_aligned base (idx * 8) hb h8
  refine ⟨he, ?_, ?_, ?_⟩ <;> rw [he] <;> omega

/-! ## Claims -/

/-- C1: each leaf `GET_ADDRESS` combines the entry masked by the
granularity's physical-address mask with the virtual address masked by the
matching page-offset mask: the 1 GiB pair for `PDPTE::GB`, the 2 MiB pair for
`PDE::MB`, and the 4 KiB pair (`table_base_mask` with `0xFFF`) for `PE`. -/
theorem c1_leaf_get_address (entry va : Nat) :
    PDPTE.GB.GET_ADDRESS entry va =
      ((entry &&& 0x000FFFFFC0000000) ||| (va &&& 0x3FFFFFFF)) ∧
    PDE.MB.GET_ADDRESS entry va =
      ((entry &&& 0x000FFFFFFFE00000) ||| (va &&& 0x1FFFFF)) ∧
    PE.GET_ADDRESS entry va =
      ((entry &&& 0x000FFFFFFFFFF000) ||| (va &&& 0xFFF)) :=
  ⟨rfl, rfl, rfl⟩

/-- C9: each of the four index extractors returns a value in `0..511`. -/
theorem c9_index_in_range (va : Nat) :
    PML4E.GET_INDEX va < 512 ∧ PDPTE.GET_INDEX va < 512 ∧
    PDE.GET_INDEX va < 512 ∧ PTE.GET_INDEX va < 512 :=
  ⟨and_pse_mask_lt _, and_pse_mask_lt _, and_pse_mask_lt _, and_pse_mask_lt _⟩

/-- C2: shifting the four extracted index fields back to their positions and
OR-ing in the low 12 bits reconstructs exactly the low 48 bits of the
virtual address. -/
theorem c2_va_field_roundtrip (va : Nat) :
    (PML4E.GET_INDEX va <<< 39) ||| (PDPTE.GET_INDEX va <<< 30) |||
    (PDE.GET_INDEX va <<< 21) ||| (PTE.GET_INDEX va <<< 12) ||| (va &&& 0xFFF) =
    va % 2 ^ 48 := by
  have h9 : (0x1FF : Nat) = 2 ^ 9 - 1 := by norm_num
  have h12 : (0xFFF : Nat) = 2 ^ 12 - 1 := by norm_num
  apply Nat.eq_of_testBit_eq
  intro i
  simp only [PML4E.GET_INDEX, PDPTE.GET_INDEX, PDE.GET_INDEX, PTE.GET_INDEX,
    VA.PML4E_INDEX, VA.PDPTE_INDEX, VA.PDE_INDEX, VA.PTE_INDEX, VA.PSE_MASK, h9, h12]
  simp only [Nat.testBit_or, testBit_index_field, Nat.testBit_and,
    Nat.testBit_two_pow_sub_one, Nat.testBit_mod_two_pow]
  cases hb : va.testBit i <;> simp only [hb, Bool.and_false, Bool.and_true,
    Bool.true_and, Bool.false_or, Bool.or_false, Bool.false_and]
  rw [Bool.eq_iff_iff]
  simp only [Bool.or_eq_true, Bool.and_eq_true, decide_eq_true_eq]
  omega

/-- C3: every entry-address computation is the page-aligned table base OR-ed
with `index * 8`, the index is below 512, and the result is 8-byte aligned
and lies inside the 4 KiB table starting at that base. -/
theorem c3_entry_get_address (e va : Nat) :
    (PML4E.GET_ADDRESS e va = (PML4E.GET_TABLE_BASE e ||| PML4E.GET_INDEX va * 8) ∧
     PML4E.GET_INDEX va < 512 ∧ PML4E.GET_ADDRESS e va % 8 = 0 ∧
     PML4E.GET_TABLE_BASE e ≤ PML4E.GET_ADDRESS e va ∧
     PML4E.GET_ADDRESS e va < PML4E.GET_TABLE_BASE e + 4096) ∧
    (PDPTE.GET_ADDRESS e va = (PDPTE.GET_TABLE_BASE e ||| PDPTE.GET_INDEX va * 8) ∧
     PDPTE.GET_INDEX va < 512 ∧ PDPTE.GET_ADDRESS e va % 8 = 0 ∧
     PDPTE.GET_TABLE_BASE e ≤ PDPTE.GET_ADDRESS e va ∧
     PDPTE.GET_ADDRESS e va < PDPTE.GET_TABLE_BASE e + 4096) ∧
    (PDE.GET_ADDRESS e va = (PDE.GET_TABLE_BASE e ||| PDE.GET_INDEX va * 8) ∧
     PDE.GET_INDEX va < 512 ∧ PDE.GET_ADDRESS e va % 8 = 0 ∧
     PDE.GET_TABLE_BASE e ≤ PDE.GET_ADDRESS e va ∧
     PDE.GET_ADDRESS e va < PDE.GET_TABLE_BASE e + 4096) ∧
    (PTE.GET_ADDRESS e va = (PTE.GET_TABLE_BASE e ||| PTE.GET_INDEX va * 8) ∧
     PTE.GET_INDEX va < 512 ∧ PTE.GET_ADDRESS e va % 8 = 0 ∧
     PTE.GET_TABLE_BASE e ≤ PTE.GET_ADDRESS e va ∧
     PTE.GET_ADDRESS e va < PTE.GET_TABLE_BASE e + 4096) := by
  have h1 := entry_address_facts (PML4E.GET_TABLE_BASE e) (PML4E.GET_INDEX va)
    (and_table_base_mask_mod e) (and_pse_mask_lt _)
  have h2 := entry_address_facts (PDPTE.GET_TABLE_BASE e) (PDPTE.GET_INDEX va)
    (and_table_base_mask_mod e) (and_pse_mask_lt _)
  have h3 := entry_address_facts (PDE.GET_TABLE_BASE e) (PDE.GET_INDEX va)
    (and_table_base_mask_mod e) (and_pse_mask_lt _)
  have h4 := entry_address_facts (PTE.GET_TABLE_BASE e) (PTE.GET_INDEX va)
    (and_table_base_mask_mod e) (and_pse_mask_lt _)
  exact ⟨⟨rfl, and_pse_mask_lt _, h1.2.1, h1.2.2.1, h1.2.2.2⟩,
    ⟨rfl, and_pse_mask_lt _, h2.2.1, h2.2.2.1, h2.2.2.2⟩,
    ⟨rfl, and_pse_mask_lt _, h3.2.1, h3.2.2.1, h3.2.2.2⟩,
    ⟨rfl, and_pse_mask_lt _, h4.2.1, h4.2.2.1, h4.2.2.2⟩⟩

/-- C7: `TABLE_BASE_MASK` is `0x000FFFFFFFFFF000`, keeping exactly bits
51:12; every `GET_TABLE_BASE` (CR3 and each table-pointing entry) applies
this same mask, so its result has the low 12 bits zero. -/
theorem c7_table_base_mask_everywhere (e i : Nat) :
    TABLE_BASE_MASK = 0x000FFFFFFFFFF000 ∧
    TABLE_BASE_MASK.testBit i = decide (12 ≤ i ∧ i ≤ 51) ∧
    PML4E.GET_TABLE_BASE e = (e &&& TABLE_BASE_MASK) ∧
    PDPTE.GET_TABLE_BASE e = (e &&& TABLE_BASE_MASK) ∧
    PDE.GET_TABLE_BASE e = (e &&& TABLE_BASE_MASK) ∧
    PTE.GET_TABLE_BASE e = (e &&& TABLE_BASE_MASK) ∧
    PML4E.GET_TABLE_BASE e % 4096 = 0 ∧ PDPTE.GET_TABLE_BASE e % 4096 = 0 ∧
    PDE.GET_TABLE_BASE e % 4096 = 0 ∧ PTE.GET_TABLE_BASE e % 4096 = 0 := by
  have hbit : TABLE_BASE_MASK.testBit i = decide (12 ≤ i ∧ i ≤ 51) := by
    have hm : TABLE_BASE_MASK = (2 ^ 40 - 1) <<< 12 := by
      norm_num [TABLE_BASE_MASK, Nat.shiftLeft_eq]
    rw [hm, testBit_shifted_ones]
    exact decide_eq_decide.mpr (by omega)
  exact ⟨rfl, hbit, rfl, rfl, rfl, rfl, and_table_base_mask_mod e,
    and_table_base_mask_mod e, and_table_base_mask_mod e, and_table_base_mask_mod e⟩

/-- C8: the 1 GiB leaf mask keeps exactly bits 51:30 (clearing 29:0) and the
2 MiB leaf mask keeps exactly bits 51:21 (clearing 20:0), in contrast with
the table-pointer mask which keeps bits 51:12. -/
theorem c8_leaf_phys_masks (i : Nat) :
    PDPTE.GB.PHYS_ADDRESS_MASK = 0x000FFFFFC0000000 ∧
    PDE.MB.PHYS_ADDRESS_MASK = 0x000FFFFFFFE00000 ∧
    PDPTE.GB.PHYS_ADDRESS_MASK.testBit i = decide (30 ≤ i ∧ i ≤ 51) ∧
    PDE.MB.PHYS_ADDRESS_MASK.testBit i = decide (21 ≤ i ∧ i ≤ 51) ∧
    TABLE_BASE_MASK.testBit i = decide (12 ≤ i ∧ i ≤ 51) := by
  have hgb : PDPTE.GB.PHYS_ADDRESS_MASK = (2 ^ 22 - 1) <<< 30 := by
    norm_num [PDPTE.GB.PHYS_ADDRESS_MASK, Nat.shiftLeft_eq]
  have hmb : PDE.MB.PHYS_ADDRESS_MASK = (2 ^ 31 - 1) <<< 21 := by
    norm_num [PDE.MB.PHYS_ADDRESS_MASK, Nat.shiftLeft_eq]
  have htb : TABLE_BASE_MASK = (2 ^ 40 - 1) <<< 12 := by
    norm_num [TABLE_BASE_MASK, Nat.shiftLeft_eq]
  refine ⟨rfl, rfl, ?_, ?_, ?_⟩
  · rw [hgb, testBit_shifted_ones]
    exact decide_eq_decide.mpr (by omega)
  · rw [hmb, testBit_shifted_ones]
    exact decide_eq_decide.mpr (by omega)
  · rw [htb, testBit_shifted_ones]
    exact decide_eq_decide.mpr (by omega)

/-- C10: every address the library produces — table bases, entry addresses,
and leaf addresses at all three granularities — is below `2 ^ 52`, i.e. has
bits 63:52 clear, whatever high bits (such as XD, bit 63) the inputs carry. -/
theorem c10_phys_addresses_fit_52_bits (e va : Nat) :
    PML4E.GET_TABLE_BASE e < 2 ^ 52 ∧ PDPTE.GET_TABLE_BASE e < 2 ^ 52 ∧
    PDE.GET_TABLE_BASE e < 2 ^ 52 ∧ PTE.GET_TABLE_BASE e < 2 ^ 52 ∧
    PML4E.GET_ADDRESS e va < 2 ^ 52 ∧ PDPTE.GET_ADDRESS e va < 2 ^ 52 ∧
    PDE.GET_ADDRESS e va < 2 ^ 52 ∧ PTE.GET_ADDRESS e va < 2 ^ 52 ∧
    PDPTE.GB.GET_ADDRESS e va < 2 ^ 52 ∧ PDE.MB.GET_ADDRESS e va < 2 ^ 52 ∧
    PE.GET_ADDRESS e va < 2 ^ 52 := by
  have hT : TABLE_BASE_MASK < 2 ^ 52 := by norm_num [TABLE_BASE_MASK]
  have hbase : ∀ x : Nat, x &&& TABLE_BASE_MASK < 2 ^ 52 := fun x =>
    Nat.and_lt_two_pow x hT
  have hidx : ∀ x : Nat, (x &&& VA.PSE_MASK) * 8 < 2 ^ 52 := by
    intro x
    have h := and_pse_mask_lt x
    have h2 : (x &&& VA.PSE_MASK) * 8 < 4096 := by omega
    exact lt_trans h2 (by norm_num)
  have hgb : e &&& PDPTE.GB.PHYS_ADDRESS_MASK < 2 ^ 52 :=
    Nat.and_lt_two_pow e (by norm_num [PDPTE.GB.PHYS_ADDRESS_MASK])
  have hmb : e &&& PDE.MB.PHYS_ADDRESS_MASK < 2 ^ 52 :=
    Nat.and_lt_two_pow e (by norm_num [PDE.MB.PHYS_ADDRESS_MASK])
  have hoff1 : va &&& VA.PAGE_OFFSET_1GB_MASK < 2 ^ 52 :=
    Nat.and_lt_two_pow va (by norm_num [VA.PAGE_OFFSET_1GB_MASK])
  have hoff2 : va &&& VA.PAGE_OFFSET_2MB_MASK < 2 ^ 52 :=
    Nat.and_lt_two_pow va (by norm_num [VA.PAGE_OFFSET_2MB_MASK])
  have hoff4 : va &&& VA.PAGE_OFFSET_4KB_MASK < 2 ^ 52 :=
    Nat.and_lt_two_pow va (by norm_num [VA.PAGE_OFFSET_4KB_MASK])
  exact ⟨hbase e, hbase e, hbase e, hbase e,
    Nat.or_lt_two_pow (hbase e) (hidx (va >>> VA.PML4E_INDEX)),
    Nat.or_lt_two_pow (hbase e) (hidx (va >>> VA.PDPTE_INDEX)),
    Nat.or_lt_two_pow (hbase e) (hidx (va >>> VA.PDE_INDEX)),
    Nat.or_lt_two_pow (hbase e) (hidx (va >>> VA.PTE_INDEX)),
    Nat.or_lt_two_pow hgb hoff1, Nat.or_lt_two_pow hmb hoff2,
    Nat.or_lt_two_pow (hbase e) hoff4⟩

/-- A single-bit AND against bit 7 testing nonzero is the bit-7 test. -/
lemma and_bit7_ne_zero (e : Nat) : (e &&& (1 <<< 7) != 0) = e.testBit 7 := by
  have h : (1 : Nat) <<< 7 = 2 ^ 7 := by norm_num [Nat.shiftLeft_eq]
  rw [h, Nat.and_two_pow]
  cases hb : e.testBit 7 <;> simp [hb]

/-- C6: `IS_LARGE_PAGE` at the PDPTE and PDE levels is exactly the PageSize
bit (bit 7); a PTE is unconditionally a leaf and a PML4E never is, the
Walker's leaf classification using the PS test only at PDPTE/PDE. -/
theorem c6_is_large_page_is_bit7 :
    (∀ e : Nat, PDPTE.IS_LARGE_PAGE e = e.testBit 7) ∧
    (∀ e : Nat, PDE.IS_LARGE_PAGE e = e.testBit 7) ∧
    (∀ e : Nat, Walker.is_leaf .PTE e = true) ∧
    (∀ e : Nat, Walker.is_leaf .PML4 e = false) ∧
    (∀ e : Nat, Walker.is_leaf .PDPTE e = PDPTE.IS_LARGE_PAGE e) ∧
    (∀ e : Nat, Walker.is_leaf .PDE e = PDE.IS_LARGE_PAGE e) :=
  ⟨fun e => and_bit7_ne_zero e, fun e => and_bit7_ne_zero e,
    fun _ => rfl, fun _ => rfl, fun _ => rfl, fun _ => rfl⟩

/-- C4: a walk whose PML4 entry has the Present bit clear faults with
`Fault{level=PML4, NotPresent}`, whatever the other bits of the entry and
whatever the virtual address. -/
theorem c4_pml4_not_present (root va entry : Nat) (read : Nat → Option Nat)
    (hr : read (PML4E.GET_ADDRESS root va) = some entry)
    (hp : entry &&& PML4E.PRESENT = 0) :
    Walker.translate root va read = .Fault .PML4 .NotPresent := by
  simp [Walker.translate, Walker.translateWalk, hr, hp]

/-- Witness for C4: an entry with every bit set except Present. -/
theorem c4_pml4_not_present_witness :
    Walker.translate 0 0 (fun _ => some 0xFFFFFFFFFFFFFFFE) =
      .Fault .PML4 .NotPresent :=
  c4_pml4_not_present 0 0 0xFFFFFFFFFFFFFFFE (fun _ => some 0xFFFFFFFFFFFFFFFE)
    rfl (by decide)

/-- C5: a read-capability failure at the PDE step makes the Walker return
`Fault{level=PDE, ReadError}` — a reason distinct from `NotPresent` — after
exactly the PML4, PDPTE and PDE reads; the PTE step is never invoked. -/
theorem c5_pde_read_error (root va pml4e pdpte : Nat) (read : Nat → Option Nat)
    (h1 : read (PML4E.GET_ADDRESS root va) = some pml4e)
    (hp1 : pml4e &&& PML4E.PRESENT ≠ 0)
    (h2 : read (PDPTE.GET_ADDRESS pml4e va) = some pdpte)
    (hp2 : pdpte &&& PDPTE.PRESENT ≠ 0)
    (hps : Walker.is_leaf .PDPTE pdpte = false)
    (h3 : read (PDE.GET_ADDRESS pdpte va) = none) :
    Walker.translateWalk root va read =
      (.Fault .PDE .ReadError,
        [PML4E.GET_ADDRESS root va, PDPTE.GET_ADDRESS pml4e va,
         PDE.GET_ADDRESS pdpte va]) ∧
    Walker.translate root va read = .Fault .PDE .ReadError ∧
    Walker.Reason.ReadError ≠ Walker.Reason.NotPresent := by
  have hw : Walker.translateWalk root va read =
      (.Fault .PDE .ReadError,
        [PML4E.GET_ADDRESS root va, PDPTE.GET_ADDRESS pml4e va,
         PDE.GET_ADDRESS pdpte va]) := by
    simp [Walker.translateWalk, h1, h2, h3, hp1, hp2, hps]
  exact ⟨hw, by simp [Walker.translate, hw], by simp⟩

/-- Witness for C5: present PML4E and PDPTE table pointers, then a read
failure at the PDE entry address. -/
theorem c5_pde_read_error_witness :
    Walker.translateWalk 0 0
        (fun a => if a = 0x2000 then none
          else if a = 0x1000 then some 0x2001 else some 0x1001) =
      (.Fault .PDE .ReadError, [0, 0x1000, 0x2000]) ∧
    Walker.translate 0 0
        (fun a => if a = 0x2000 then none
          else if a = 0x1000 then some 0x2001 else some 0x1001) =
      .Fault .PDE .ReadError ∧
    Walker.Reason.ReadError ≠ Walker.Reason.NotPresent :=
  c5_pde_read_error 0 0 0x1001 0x2001
    (fun a => if a = 0x2000 then none
      else if a = 0x1000 then some 0x2001 else some 0x1001)
    (by decide) (by decide) (by decide) (by decide) (by decide) (by decide)
